import Mathlib

/-!
Verification development for the nabu repository (a filesystem watcher that
turns file changes into version-control commits).

The definitions below are a shallow embedding of the Rust sources:
  - src/config.rs   : the settings object and its defaults
  - src/fs.rs       : the directory enumerator (list of subdirectories with
                      basename exclusion and subtree pruning)
  - src/git.rs      : the authentication method enum and the repository
                      backend contract (stage, stage_all, commit, push)
  - src/bin/nabu/watch.rs : configuration merge, authentication resolution,
                      the event translator and the watch run loop with its
                      shutdown and bounded push protocol.

Effectful operations (filesystem queries, backend calls, timestamps, channel
receives) are made explicit: filesystem shape, backend success and failure,
timestamps and receive outcomes are parameters, and backend interactions are
recorded as a trace of calls.  A panic (a Rust unwrap or todo on a failing
value) is an explicit outcome, distinguished from a gracefully returned error.
-/

namespace Nabu

/-! ### src/config.rs -/

/-- Default watcher delay in seconds (const DEFAULT_DELAY in config.rs). -/
def DEFAULT_DELAY : Nat := 30

/-- The settings object parsed from nabu.toml (struct Config in config.rs). -/
structure Config where
  delay : Nat
  ignore : List String
  push_on_exit : Bool
deriving Repr, DecidableEq

/-- The built-in defaults (impl Default for Config in config.rs):
delay 30, empty ignore list, no push on exit. -/
def Config.defaultConfig : Config :=
  { delay := DEFAULT_DELAY, ignore := [], push_on_exit := false }

/-! ### src/fs.rs : directory enumeration

A directory tree is modelled as a rose tree of named nodes.  A directory in
the tree is identified by its chain of names from the root (root name first),
the shallow analogue of its path. -/

mutual

/-- A filesystem node: a plain file or a directory with children. -/
inductive FsTree where
  | file (name : String)
  | dir (name : String) (children : FsForest)

/-- A list of sibling filesystem nodes. -/
inductive FsForest where
  | nil
  | cons (head : FsTree) (tail : FsForest)

end

mutual

/-- Embedding of list_subdirs (fs.rs): walk the tree, keep only directory
entries whose basename is not in the ignored set, and prune the whole subtree
of any entry that fails the filter (WalkDir filter_entry semantics).  Results
are directory name chains from the root. -/
def listSubdirs (ignored : List String) : FsTree → List (List String)
  | .file _ => []
  | .dir n cs =>
    if n ∈ ignored then []
    else [n] :: (listSubdirsForest ignored cs).map (fun c => n :: c)

/-- The walk of list_subdirs over a list of sibling nodes. -/
def listSubdirsForest (ignored : List String) : FsForest → List (List String)
  | .nil => []
  | .cons t ts => listSubdirs ignored t ++ listSubdirsForest ignored ts

end

mutual

/-- All directory name chains present in a tree, with no exclusion. -/
def dirChains : FsTree → List (List String)
  | .file _ => []
  | .dir n cs => [n] :: (dirChainsForest cs).map (fun c => n :: c)

/-- All directory name chains contributed by a list of sibling nodes. -/
def dirChainsForest : FsForest → List (List String)
  | .nil => []
  | .cons t ts => dirChains t ++ dirChainsForest ts

end

/-- The example tree of the spec: a root directory containing .git, which
contains objects. -/
def gitTree : FsTree :=
  .dir "root" (.cons (.dir ".git" (.cons (.dir "objects" .nil) .nil)) .nil)

/-! ### src/git.rs -/

/-- The authentication method enum exactly as declared in git.rs: it has the
two variants SshAgent and SshKey and no others. -/
inductive AuthenticationMethod where
  | sshAgent
  | sshKey (path : String) (passphrase : String)
deriving Repr, DecidableEq

/-! ### src/bin/nabu/watch.rs -/

/-- The authentication method watch.rs assumes: get_authentication_method in
watch.rs constructs an additional Https variant with username and password.
No such variant exists on AuthenticationMethod in git.rs (the crate does not
compile as written); this extended enum models what watch.rs is written
against. -/
inductive WatchAuthMethod where
  | sshAgent
  | sshKey (path : String) (passphrase : String)
  | https (username : String) (password : String)
deriving Repr, DecidableEq

/-- The CLI argument record for the watch subcommand (struct WatchArgs). -/
structure WatchArgs where
  directory : String
  recursive : Bool
  dry_run : Bool
  delay : Option Nat
  ignore : List String
  config : Option String
  push_on_exit : Bool
  ssh_agent : Bool
  ssh_key : Option String
  ssh_passphrase : String
  https : Bool
  https_username : Option String
  https_password : Option String
deriving Repr, DecidableEq

/-- Embedding of WatchArgs::update_from_config: a CLI delay wins over the
settings value, a non-empty CLI ignore list wins over the settings value, and
push_on_exit is the disjunction of the CLI flag and the settings value. -/
def WatchArgs.updateFromConfig (a : WatchArgs) (cfg : Config) : WatchArgs :=
  { a with
    delay := if a.delay.isNone then some cfg.delay else a.delay
    ignore := if a.ignore.isEmpty then cfg.ignore else a.ignore
    push_on_exit := a.push_on_exit || cfg.push_on_exit }

/-- Embedding of WatchArgs::list_watched_directories: enumerate the
subdirectories of the watched directory, excluding the ignored basenames.
The concrete filesystem under the watched directory is passed as a tree. -/
def WatchArgs.listWatchedDirectories (a : WatchArgs) (tree : FsTree) :
    List (List String) :=
  listSubdirs a.ignore tree

/-- Outcome of get_authentication_method: an Ok value, or a panic (the
source panics on a missing key file and unwraps the username and password
options). -/
inductive AuthOutcome where
  | ok (m : WatchAuthMethod)
  | panicked (msg : String)
deriving Repr, DecidableEq

/-- Embedding of WatchArgs::get_authentication_method.  keyExists is the
filesystem oracle for path.exists().  The ssh-agent environment check only
logs a warning and never changes the result, so it is not modelled. -/
def WatchArgs.getAuthenticationMethod (a : WatchArgs)
    (keyExists : String → Bool) : AuthOutcome :=
  if a.ssh_agent then .ok .sshAgent
  else
    match a.ssh_key with
    | some path =>
      if keyExists path then .ok (.sshKey path a.ssh_passphrase)
      else .panicked "provided key does not exist"
    | none =>
      match a.https_username, a.https_password with
      | some u, some p => .ok (.https u p)
      | _, _ => .panicked "called unwrap on a None value"

/-! ### The watch run loop (Watch::run and Watch::handle_event) -/

/-- The debounced filesystem events delivered by the notify watcher, with
paths as strings (DebouncedEvent in the notify crate, as consumed by
handle_event). -/
inductive DebouncedEvent where
  | noticeWrite (path : String)
  | noticeRemove (path : String)
  | create (path : String)
  | write (path : String)
  | chmod (path : String)
  | remove (path : String)
  | rename (old : String) (new : String)
  | rescan
  | errorEvent (msg : String)
deriving Repr, DecidableEq

/-- The result of translating one event in handle_event: a commit request (a
path to stage with a commit message), no action, or a panic (the todo arms
for Rescan and Error events). -/
inductive Translation where
  | req (path : String) (message : String)
  | skip
  | panicTodo
deriving Repr, DecidableEq

/-- The match in Watch::handle_event: per event kind, the staged path and the
generated commit message (timestamps captured at translation time are passed
in as now).  Directory creations and the two notice events yield no request;
Rescan and Error events hit todo arms. -/
def translateEvent (isDir : String → Bool) (now : String) :
    DebouncedEvent → Translation
  | .create p =>
    if isDir p then .skip else .req p ("created file " ++ p ++ " @ " ++ now)
  | .write p => .req p ("written file " ++ p ++ " @ " ++ now)
  | .chmod p => .req p ("chmod file " ++ p ++ " @ " ++ now)
  | .remove p => .req p ("deleted file " ++ p ++ " @ " ++ now)
  | .rename o n =>
    .req n ("renamed file " ++ o ++ " to " ++ n ++ " @ " ++ now)
  | .rescan => .panicTodo
  | .errorEvent _ => .panicTodo
  | .noticeWrite _ => .skip
  | .noticeRemove _ => .skip

/-- A call made on the repository backend (the four-operation contract of the
Repository trait in git.rs). -/
inductive BackendCall where
  | stage (path : String)
  | stageAll
  | commit (message : String)
  | push
deriving Repr, DecidableEq

/-- The staged paths of a backend call trace. -/
def stagedPaths (calls : List BackendCall) : List String :=
  calls.filterMap fun c =>
    match c with
    | .stage p => some p
    | _ => none

/-- The environment of one run: the filesystem directory test used by
handle_event, and the backend success oracles (a false value means the
corresponding Result is an Err, which the source unwraps). -/
structure RunEnv where
  isDir : String → Bool
  stageOk : String → Bool
  commitOk : String → Bool
  stageAllOk : Bool

/-- One outcome of recv_timeout in the run loop: an event, a timeout, or a
disconnected sender (logged, loop continues). -/
inductive RecvOutcome where
  | ev (e : DebouncedEvent)
  | timeout
  | disconnected

/-- The backend calls of one loop iteration, and whether it panicked.
The source runs repo.stage(path).unwrap() then repo.commit(&message).unwrap():
a failing stage makes the stage call and panics before any commit call; a
failing commit makes both calls and panics after the commit call. -/
def stepCalls (env : RunEnv) (now : String) (r : RecvOutcome) :
    List BackendCall × Bool :=
  match r with
  | .timeout => ([], false)
  | .disconnected => ([], false)
  | .ev e =>
    match translateEvent env.isDir now e with
    | .skip => ([], false)
    | .panicTodo => ([], true)
    | .req p m =>
      if env.stageOk p then
        if env.commitOk m then ([.stage p, .commit m], false)
        else ([.stage p, .commit m], true)
      else ([.stage p], true)

/-- The while loop of Watch::run: the iteration list holds the receive
outcome and translation timestamp of each pass made while the cancellation
flag was still true; once the list is exhausted the flag reads false.
Returns the accumulated backend calls and whether the loop panicked. -/
def runLoop (env : RunEnv) : List (RecvOutcome × String) → List BackendCall × Bool
  | [] => ([], false)
  | (r, now) :: rest =>
    let s := stepCalls env now r
    if s.2 then (s.1, true)
    else
      let t := runLoop env rest
      (s.1 ++ t.1, t.2)

/-- The state carried by struct Watch (watch.rs): the watchlist, the debounce
delay, the push flag and the resolved authentication method.  The repository
handle and the cancellation flag are modelled by the run environment and the
iteration list. -/
structure WatchState where
  watchlist : List (List String)
  delay : Nat
  push_on_exit : Bool
  authentication_method : WatchAuthMethod
deriving Repr, DecidableEq

/-- The subscription mode requested from the notify watcher. -/
inductive RecursiveMode where
  | recursive
  | nonRecursive
deriving Repr, DecidableEq

/-- The watcher subscriptions issued at the top of Watch::run: every
watchlist entry is subscribed with RecursiveMode::NonRecursive. -/
def WatchState.subscriptions (w : WatchState) :
    List (List String × RecursiveMode) :=
  w.watchlist.map fun d => (d, RecursiveMode.nonRecursive)

/-- The hardcoded bound, in seconds, of the push completion wait in
Watch::run (recv_timeout(Duration::from_secs(5))). -/
def pushWaitBoundSecs (_w : WatchState) : Nat := 5

/-- The observable result of one whole Watch::run: the backend call trace,
whether the run panicked, the seconds spent waiting on the push completion
signal, and whether the timeout warning was logged. -/
structure RunResult where
  calls : List BackendCall
  panicked : Bool
  waited : Nat
  warnedTimeout : Bool
deriving Repr, DecidableEq

/-- Embedding of Watch::run after the subscriptions: drive the loop until the
cancellation flag reads false (or a panic), then unconditionally call
stage_all and commit the exit snapshot message (both unwrapped), then, when
push_on_exit is set, hand the repository to a background task and wait on its
completion signal for at most 5 seconds.  sigArrival is the number of seconds
after the wait starts at which the push task sends its completion signal. -/
def WatchState.runWatch (w : WatchState) (env : RunEnv)
    (iters : List (RecvOutcome × String)) (exitNow : String)
    (sigArrival : Nat) : RunResult :=
  let l := runLoop env iters
  if l.2 then ⟨l.1, true, 0, false⟩
  else if env.stageAllOk then
    let m := "nabu exited snapshot @ " ++ exitNow
    if env.commitOk m then
      if w.push_on_exit then
        ⟨l.1 ++ [.stageAll, .commit m, .push], false,
          min sigArrival (pushWaitBoundSecs w), decide (pushWaitBoundSecs w < sigArrival)⟩
      else ⟨l.1 ++ [.stageAll, .commit m], false, 0, false⟩
    else ⟨l.1 ++ [.stageAll, .commit m], true, 0, false⟩
  else ⟨l.1 ++ [.stageAll], true, 0, false⟩

/-! ### WatchArgs::run startup -/

/-- How WatchArgs::run ends its setup phase: a panic before the run loop (an
unwrap failure), a gracefully returned error before the run loop (a failing
question-mark operator), or entry into the run loop with the built Watch
state. -/
inductive StartupOutcome where
  | panicBeforeLoop (msg : String)
  | errBeforeLoop
  | loopEntered (w : WatchState)
deriving Repr, DecidableEq

/-- Embedding of WatchArgs::run up to Watch::run: merge the configuration,
enumerate the watched directories, resolve the delay, then in dry-run mode
build the Watch over the dummy repository, and otherwise canonicalize the
directory and open the repository (repoOpenOk; a failure is returned with
the question-mark operator, not a panic).  In both branches the
authentication method is resolved and unwrapped before the loop. -/
def WatchArgs.runStartup (a : WatchArgs) (cfg : Config) (tree : FsTree)
    (keyExists : String → Bool) (repoOpenOk : Bool) : StartupOutcome :=
  let a1 := a.updateFromConfig cfg
  let dirs := a1.listWatchedDirectories tree
  let d := a1.delay.getD DEFAULT_DELAY
  if a1.dry_run then
    match a1.getAuthenticationMethod keyExists with
    | .panicked m => .panicBeforeLoop m
    | .ok am => .loopEntered ⟨dirs, d, a1.push_on_exit, am⟩
  else if repoOpenOk then
    match a1.getAuthenticationMethod keyExists with
    | .panicked m => .panicBeforeLoop m
    | .ok am => .loopEntered ⟨dirs, d, a1.push_on_exit, am⟩
  else .errBeforeLoop

/-! ## Helper lemmas -/

mutual

theorem mem_listSubdirs (ig : List String) (c : List String) :
    (t : FsTree) → (c ∈ listSubdirs ig t ↔ c ∈ dirChains t ∧ ∀ s ∈ c, s ∉ ig)
  | .file _ => by simp [listSubdirs, dirChains]
  | .dir n cs => by
    by_cases h : n ∈ ig
    · simp only [listSubdirs, if_pos h, List.not_mem_nil, false_iff]
      rintro ⟨hc, hall⟩
      have hn : n ∈ c := by
        simp only [dirChains, List.mem_cons, List.mem_map] at hc
        rcases hc with rfl | ⟨c', _, rfl⟩ <;> simp
      exact hall n hn h
    · simp only [listSubdirs, if_neg h, dirChains, List.mem_cons, List.mem_map]
      constructor
      · rintro (rfl | ⟨c', hc', rfl⟩)
        · refine ⟨Or.inl rfl, ?_⟩
          intro s hs
          rcases List.mem_singleton.mp hs with rfl
          exact h
        · have hmem := (mem_listSubdirsForest ig c' cs).mp hc'
          refine ⟨Or.inr ⟨c', hmem.1, rfl⟩, ?_⟩
          intro s hs
          rcases List.mem_cons.mp hs with rfl | hs'
          · exact h
          · exact hmem.2 s hs'
      · rintro ⟨rfl | ⟨c', hc', rfl⟩, hall⟩
        · exact Or.inl rfl
        · refine Or.inr ⟨c', ?_, rfl⟩
          exact (mem_listSubdirsForest ig c' cs).mpr
            ⟨hc', fun s hs => hall s (List.mem_cons_of_mem _ hs)⟩

theorem mem_listSubdirsForest (ig : List String) (c : List String) :
    (f : FsForest) →
      (c ∈ listSubdirsForest ig f ↔ c ∈ dirChainsForest f ∧ ∀ s ∈ c, s ∉ ig)
  | .nil => by simp [listSubdirsForest, dirChainsForest]
  | .cons t ts => by
    have h1 := mem_listSubdirs ig c t
    have h2 := mem_listSubdirsForest ig c ts
    simp only [listSubdirsForest, dirChainsForest, List.mem_append, h1, h2]
    tauto

end

theorem stageAll_not_mem_stepCalls (env : RunEnv) (now : String)
    (r : RecvOutcome) : BackendCall.stageAll ∉ (stepCalls env now r).1 := by
  cases r with
  | timeout => simp [stepCalls]
  | disconnected => simp [stepCalls]
  | ev e =>
    simp only [stepCalls]
    cases translateEvent env.isDir now e with
    | skip => simp
    | panicTodo => simp
    | req p m =>
      by_cases h1 : env.stageOk p
      · by_cases h2 : env.commitOk m <;> simp [h1, h2]
      · simp [h1]

theorem stageAll_not_mem_runLoop (env : RunEnv) :
    ∀ iters : List (RecvOutcome × String),
      BackendCall.stageAll ∉ (runLoop env iters).1
  | [] => by simp [runLoop]
  | (r, now) :: rest => by
    have h1 := stageAll_not_mem_stepCalls env now r
    have h2 := stageAll_not_mem_runLoop env rest
    simp only [runLoop]
    by_cases h : (stepCalls env now r).2
    · simpa [h] using h1
    · simp only [h, if_neg Bool.false_ne_true]
      intro hc
      rcases List.mem_append.mp hc with hc' | hc'
      · exact h1 hc'
      · exact h2 hc'

theorem runLoop_append (env : RunEnv) :
    ∀ xs ys : List (RecvOutcome × String),
      runLoop env (xs ++ ys) =
        if (runLoop env xs).2 then runLoop env xs
        else ((runLoop env xs).1 ++ (runLoop env ys).1, (runLoop env ys).2)
  | [], ys => by simp [runLoop]
  | (r, now) :: xs, ys => by
    have ih := runLoop_append env xs ys
    simp only [List.cons_append, runLoop]
    by_cases h : (stepCalls env now r).2
    · simp [h]
    · by_cases h2 : (runLoop env xs).2
      · simp [h, ih, h2]
      · simp [h, ih, h2, List.append_assoc]

/-! ## Claim theorems -/

/-- C3: for every Created(p) event, if p is a directory the translator
produces no commit request and the iteration makes no backend call; if p is
not a directory the translator produces exactly one commit request for the
path p whose message contains the literal substring "created file" and the
path p. -/
theorem create_event_translation (env : RunEnv) (p now : String) :
    (env.isDir p = true →
      translateEvent env.isDir now (.create p) = .skip ∧
      stepCalls env now (.ev (.create p)) = ([], false)) ∧
    (env.isDir p = false →
      translateEvent env.isDir now (.create p) =
        .req p ("created file " ++ p ++ " @ " ++ now) ∧
      "created file".toList <:+: ("created file " ++ p ++ " @ " ++ now).toList ∧
      p.toList <:+: ("created file " ++ p ++ " @ " ++ now).toList) := by
  constructor
  · intro h
    constructor
    · simp [translateEvent, h]
    · simp [stepCalls, translateEvent, h]
  · intro h
    refine ⟨by simp [translateEvent, h], ?_, ?_⟩
    · exact ⟨[], " ".toList ++ p.toList ++ " @ ".toList ++ now.toList,
        by simp [String.toList, String.data_append]⟩
    · exact ⟨"created file ".toList, " @ ".toList ++ now.toList,
        by simp [String.toList, String.data_append]⟩

/-- Witness for C3 at a concrete directory creation and a concrete file
creation. -/
theorem create_event_translation_witness :
    (translateEvent (fun p => p == "d") "T" (.create "d") = .skip ∧
      stepCalls ⟨fun p => p == "d", fun _ => true, fun _ => true, true⟩ "T"
        (.ev (.create "d")) = ([], false)) ∧
    (translateEvent (fun p => p == "d") "T" (.create "a.txt") =
        .req "a.txt" "created file a.txt @ T" ∧
      "created file".toList <:+: "created file a.txt @ T".toList ∧
      "a.txt".toList <:+: "created file a.txt @ T".toList) := by
  constructor
  · exact (create_event_translation
      ⟨fun p => p == "d", fun _ => true, fun _ => true, true⟩ "d" "T").1
      (by decide)
  · exact (create_event_translation
      ⟨fun p => p == "d", fun _ => true, fun _ => true, true⟩ "a.txt" "T").2
      (by decide)

/-- C4: for every Renamed(old, new) event, the commit request stages the new
path and never the old path, with message
"renamed file {old} to {new} @ {timestamp}". -/
theorem rename_event_translation (env : RunEnv) (o n now : String)
    (h : o ≠ n) :
    translateEvent env.isDir now (.rename o n) =
      .req n ("renamed file " ++ o ++ " to " ++ n ++ " @ " ++ now) ∧
    stagedPaths (stepCalls env now (.ev (.rename o n))).1 = [n] ∧
    o ∉ stagedPaths (stepCalls env now (.ev (.rename o n))).1 := by
  have ht : translateEvent env.isDir now (.rename o n) =
      .req n ("renamed file " ++ o ++ " to " ++ n ++ " @ " ++ now) := by
    simp [translateEvent]
  have hs : stagedPaths (stepCalls env now (.ev (.rename o n))).1 = [n] := by
    simp only [stepCalls, ht]
    by_cases h1 : env.stageOk n
    · by_cases h2 :
        env.commitOk ("renamed file " ++ o ++ " to " ++ n ++ " @ " ++ now) <;>
        simp [h1, h2, stagedPaths]
    · simp [h1, stagedPaths]
  refine ⟨ht, hs, ?_⟩
  rw [hs]
  simp [h]

/-- Witness for C4 at a concrete rename of a to b. -/
theorem rename_event_translation_witness :
    translateEvent (fun _ => false) "T" (.rename "a" "b") =
      .req "b" "renamed file a to b @ T" ∧
    stagedPaths (stepCalls ⟨fun _ => false, fun _ => true, fun _ => true, true⟩
      "T" (.ev (.rename "a" "b"))).1 = ["b"] ∧
    "a" ∉ stagedPaths (stepCalls ⟨fun _ => false, fun _ => true, fun _ => true, true⟩
      "T" (.ev (.rename "a" "b"))).1 :=
  rename_event_translation ⟨fun _ => false, fun _ => true, fun _ => true, true⟩
    "a" "b" "T" (by decide)

/-- C8: a directory chain is in the enumeration exactly when it is a
directory of the tree and no name on the chain (the basename of the
directory or of one of its ancestors) is excluded; in particular excluding
.git from a tree containing root/.git/objects yields exactly the root and
keeps neither root/.git nor root/.git/objects. -/
theorem listSubdirs_enumeration (ig : List String) (c : List String)
    (t : FsTree) :
    (c ∈ listSubdirs ig t ↔ c ∈ dirChains t ∧ ∀ s ∈ c, s ∉ ig) ∧
    listSubdirs [".git"] gitTree = [["root"]] ∧
    ["root", ".git"] ∉ listSubdirs [".git"] gitTree ∧
    ["root", ".git", "objects"] ∉ listSubdirs [".git"] gitTree := by
  refine ⟨mem_listSubdirs ig c t, by decide, by decide, by decide⟩

/-- C1 (amended): once the cancellation flag becomes true, if the loop did
not panic and the shutdown backend calls succeed, the run terminates with
exactly one stage_all call followed by exactly one commit call, after every
event-driven call and regardless of how many event-driven commits preceded
(the loop trace never contains a stage_all), and the final commit message is
"nabu exited snapshot @ {timestamp}"; an optional push call is the only call
after it. -/
theorem shutdown_protocol (w : WatchState) (env : RunEnv)
    (iters : List (RecvOutcome × String)) (exitNow : String) (sigArrival : Nat)
    (hloop : (runLoop env iters).2 = false)
    (hstageAll : env.stageAllOk = true)
    (hcommit : env.commitOk ("nabu exited snapshot @ " ++ exitNow) = true) :
    (w.runWatch env iters exitNow sigArrival).panicked = false ∧
    (w.runWatch env iters exitNow sigArrival).calls =
      (runLoop env iters).1 ++
        [BackendCall.stageAll,
          BackendCall.commit ("nabu exited snapshot @ " ++ exitNow)] ++
        (if w.push_on_exit then [BackendCall.push] else []) ∧
    BackendCall.stageAll ∉ (runLoop env iters).1 := by
  refine ⟨?_, ?_, stageAll_not_mem_runLoop env iters⟩ <;>
    by_cases hp : w.push_on_exit <;>
      simp [WatchState.runWatch, hloop, hstageAll, hcommit, hp]

/-- Witness for C1 at a concrete run with one written-file event followed by
cancellation. -/
theorem shutdown_protocol_witness :
    (WatchState.runWatch ⟨[], 30, false, .sshAgent⟩
        ⟨fun _ => false, fun _ => true, fun _ => true, true⟩
        [(.ev (.write "a"), "T1")] "T" 0).panicked = false ∧
    (WatchState.runWatch ⟨[], 30, false, .sshAgent⟩
        ⟨fun _ => false, fun _ => true, fun _ => true, true⟩
        [(.ev (.write "a"), "T1")] "T" 0).calls =
      (runLoop ⟨fun _ => false, fun _ => true, fun _ => true, true⟩
          [(.ev (.write "a"), "T1")]).1 ++
        [BackendCall.stageAll, BackendCall.commit "nabu exited snapshot @ T"] ++
        (if (false : Bool) then [BackendCall.push] else []) ∧
    BackendCall.stageAll ∉
      (runLoop ⟨fun _ => false, fun _ => true, fun _ => true, true⟩
        [(.ev (.write "a"), "T1")]).1 :=
  shutdown_protocol ⟨[], 30, false, .sshAgent⟩
    ⟨fun _ => false, fun _ => true, fun _ => true, true⟩
    [(.ev (.write "a"), "T1")] "T" 0 (by decide) (by decide) (by decide)

/-- Counterexample to C1 as stated: in a concrete run the final commit
message is "nabu exited snapshot @ T", which is not the claimed
"exited snapshot @ T" (the code prepends the program name nabu). -/
theorem exit_message_counterexample :
    (WatchState.runWatch ⟨[], 30, false, .sshAgent⟩
        ⟨fun _ => false, fun _ => true, fun _ => true, true⟩ [] "T" 0).calls =
      [BackendCall.stageAll, BackendCall.commit "nabu exited snapshot @ T"] ∧
    BackendCall.commit "exited snapshot @ T" ∉
      (WatchState.runWatch ⟨[], 30, false, .sshAgent⟩
        ⟨fun _ => false, fun _ => true, fun _ => true, true⟩ [] "T" 0).calls ∧
    "nabu exited snapshot @ T" ≠ "exited snapshot @ T" := by
  refine ⟨by decide, by decide, by decide⟩

/-- C2 (amended): if the backend stage or commit call for a single
translated event fails, the run panics at that event: the run ends with the
calls made so far and no subsequent event is processed (the loop does not
continue and no shutdown calls are made). -/
theorem event_error_fatal (w : WatchState) (env : RunEnv)
    (pre rest : List (RecvOutcome × String)) (r : RecvOutcome) (now : String)
    (cs0 cs1 : List BackendCall) (exitNow : String) (sig : Nat)
    (hpre : runLoop env pre = (cs0, false))
    (hstep : stepCalls env now r = (cs1, true)) :
    (w.runWatch env (pre ++ (r, now) :: rest) exitNow sig).panicked = true ∧
    (w.runWatch env (pre ++ (r, now) :: rest) exitNow sig).calls =
      cs0 ++ cs1 := by
  have hl : runLoop env (pre ++ (r, now) :: rest) = (cs0 ++ cs1, true) := by
    rw [runLoop_append env pre ((r, now) :: rest), hpre]
    simp [runLoop, hstep]
  simp [WatchState.runWatch, hl]

/-- Witness for C2: a concrete run whose second event fails to stage. -/
theorem event_error_fatal_witness :
    (WatchState.runWatch ⟨[], 30, false, .sshAgent⟩
        ⟨fun _ => false, fun p => p == "a", fun _ => true, true⟩
        ([(.ev (.write "a"), "T1")] ++ (.ev (.write "b"), "T2") ::
          [(.ev (.write "c"), "T3")]) "T" 0).panicked = true ∧
    (WatchState.runWatch ⟨[], 30, false, .sshAgent⟩
        ⟨fun _ => false, fun p => p == "a", fun _ => true, true⟩
        ([(.ev (.write "a"), "T1")] ++ (.ev (.write "b"), "T2") ::
          [(.ev (.write "c"), "T3")]) "T" 0).calls =
      [BackendCall.stage "a", BackendCall.commit "written file a @ T1"] ++
        [BackendCall.stage "b"] :=
  event_error_fatal ⟨[], 30, false, .sshAgent⟩
    ⟨fun _ => false, fun p => p == "a", fun _ => true, true⟩
    [(.ev (.write "a"), "T1")] [(.ev (.write "c"), "T3")]
    (.ev (.write "b")) "T2"
    [BackendCall.stage "a", BackendCall.commit "written file a @ T1"]
    [BackendCall.stage "b"] "T" 0 (by decide) (by decide)

/-- Counterexample to C2 as stated: in a concrete run where the stage call
of the first written file fails, the run panics with only that stage call
in the trace; the second event is never staged or committed, so the loop
does not continue processing subsequent events and the failure is fatal. -/
theorem event_error_continue_counterexample :
    (WatchState.runWatch ⟨[], 30, false, .sshAgent⟩
        ⟨fun _ => false, fun _ => false, fun _ => true, true⟩
        [(.ev (.write "a"), "T1"), (.ev (.write "b"), "T2")] "T" 0).panicked
      = true ∧
    (WatchState.runWatch ⟨[], 30, false, .sshAgent⟩
        ⟨fun _ => false, fun _ => false, fun _ => true, true⟩
        [(.ev (.write "a"), "T1"), (.ev (.write "b"), "T2")] "T" 0).calls =
      [BackendCall.stage "a"] ∧
    BackendCall.stage "b" ∉
      (WatchState.runWatch ⟨[], 30, false, .sshAgent⟩
        ⟨fun _ => false, fun _ => false, fun _ => true, true⟩
        [(.ev (.write "a"), "T1"), (.ev (.write "b"), "T2")] "T" 0).calls := by
  refine ⟨by decide, by decide, by decide⟩

/-- C5 (amended): when the shutdown reaches the push phase, the orchestrator
waits for the push completion signal for at most 5 seconds, a hardcoded
constant (no configuration field controls it); if the signal does not arrive
within those 5 seconds it logs the timeout warning and terminates after
waiting exactly 5 seconds, never blocking indefinitely. -/
theorem push_wait_bounded (w : WatchState) (env : RunEnv)
    (iters : List (RecvOutcome × String)) (exitNow : String)
    (sigArrival : Nat) :
    (w.runWatch env iters exitNow sigArrival).waited ≤ 5 ∧
    ((w.runWatch env iters exitNow sigArrival).panicked = false →
      w.push_on_exit = true → 5 < sigArrival →
      (w.runWatch env iters exitNow sigArrival).waited = 5 ∧
      (w.runWatch env iters exitNow sigArrival).warnedTimeout = true) := by
  unfold WatchState.runWatch
  by_cases h1 : (runLoop env iters).2
  · simp [h1]
  · by_cases h2 : env.stageAllOk
    · by_cases h3 : env.commitOk ("nabu exited snapshot @ " ++ exitNow)
      · by_cases h4 : w.push_on_exit
        · simp only [h1, h2, h3, h4, Bool.false_eq_true, if_false, if_true,
            pushWaitBoundSecs]
          refine ⟨Nat.min_le_right _ _, ?_⟩
          intro _ _ h5
          exact ⟨Nat.min_eq_right (Nat.le_of_lt h5), by simpa using h5⟩
        · simp [h1, h2, h3, h4]
      · simp [h1, h2, h3]
    · simp [h1, h2]

/-- Witness for C5: a concrete push-on-exit run whose completion signal
arrives only after 7 seconds waits exactly 5 seconds and warns. -/
theorem push_wait_bounded_witness :
    (WatchState.runWatch ⟨[], 30, true, .sshAgent⟩
        ⟨fun _ => false, fun _ => true, fun _ => true, true⟩ [] "T" 7).waited
      = 5 ∧
    (WatchState.runWatch ⟨[], 30, true, .sshAgent⟩
        ⟨fun _ => false, fun _ => true, fun _ => true, true⟩ [] "T" 7
      ).warnedTimeout = true :=
  (push_wait_bounded ⟨[], 30, true, .sshAgent⟩
      ⟨fun _ => false, fun _ => true, fun _ => true, true⟩ [] "T" 7).2
    (by decide) (by decide) (by decide)

/-- Counterexample to C5 as stated: the claim makes the wait bound a
configurable pushTimeoutSeconds field, but neither the argument record nor
the settings object nor the Watch state has any such field; the bound is the
constant 5 for two Watch states that differ in every field, and a run whose
delay is 99 with a signal arriving at 7 seconds still waits exactly the
hardcoded 5 seconds. -/
theorem push_timeout_not_configurable :
    pushWaitBoundSecs ⟨[], 30, true, .sshAgent⟩ = 5 ∧
    pushWaitBoundSecs ⟨[["root"]], 99, false, .sshKey "k" "s"⟩ = 5 ∧
    (WatchState.runWatch ⟨[], 99, true, .sshAgent⟩
        ⟨fun _ => false, fun _ => true, fun _ => true, true⟩ [] "T" 7).waited
      = 5 ∧
    (WatchState.runWatch ⟨[], 99, true, .sshAgent⟩
        ⟨fun _ => false, fun _ => true, fun _ => true, true⟩ [] "T" 7
      ).warnedTimeout = true := by
  refine ⟨by decide, by decide, by decide, by decide⟩

/-- C6 (amended): for every field of the merged configuration an explicit
CLI value (a given delay, a non-empty ignore list, a set push flag) wins
over the settings-file value, the settings-file value wins over the
built-in default, and with neither present the built-in defaults apply:
delay resolves to 30 and the ignore set resolves to the empty set (not to
a set containing .git). -/
theorem config_merge_precedence (a : WatchArgs) (cfg : Config) :
    (∀ d, a.delay = some d → (a.updateFromConfig cfg).delay = some d) ∧
    (a.delay = none → (a.updateFromConfig cfg).delay = some cfg.delay) ∧
    (a.ignore ≠ [] → (a.updateFromConfig cfg).ignore = a.ignore) ∧
    (a.ignore = [] → (a.updateFromConfig cfg).ignore = cfg.ignore) ∧
    (a.updateFromConfig cfg).push_on_exit
      = (a.push_on_exit || cfg.push_on_exit) ∧
    Config.defaultConfig.delay = 30 ∧
    Config.defaultConfig.ignore = [] ∧
    (a.delay = none → a.ignore = [] →
      (a.updateFromConfig Config.defaultConfig).delay = some 30 ∧
      (a.updateFromConfig Config.defaultConfig).ignore = []) := by
  refine ⟨?_, ?_, ?_, ?_, ?_, rfl, rfl, ?_⟩
  · intro d hd
    simp [WatchArgs.updateFromConfig, hd]
  · intro hd
    simp [WatchArgs.updateFromConfig, hd]
  · intro hi
    have : a.ignore.isEmpty = false := by
      simpa [List.isEmpty_iff] using hi
    simp [WatchArgs.updateFromConfig, this]
  · intro hi
    simp [WatchArgs.updateFromConfig, hi]
  · rfl
  · intro hd hi
    constructor
    · simp [WatchArgs.updateFromConfig, hd, Config.defaultConfig, DEFAULT_DELAY]
    · simp [WatchArgs.updateFromConfig, hi, Config.defaultConfig]

/-- Witness for C6: a CLI delay of 10 beats a settings delay of 42, a
settings delay of 42 beats the default, and with neither the defaults give
delay 30 and an empty ignore set. -/
theorem config_merge_precedence_witness :
    (WatchArgs.updateFromConfig
        ⟨"d", false, false, some 10, ["x"], none, false, false, none, "",
          false, none, none⟩ ⟨42, ["y"], false⟩).delay = some 10 ∧
    (WatchArgs.updateFromConfig
        ⟨"d", false, false, none, [], none, false, false, none, "",
          false, none, none⟩ ⟨42, ["y"], false⟩).delay = some 42 ∧
    (WatchArgs.updateFromConfig
        ⟨"d", false, false, none, [], none, false, false, none, "",
          false, none, none⟩ Config.defaultConfig).delay = some 30 ∧
    (WatchArgs.updateFromConfig
        ⟨"d", false, false, none, [], none, false, false, none, "",
          false, none, none⟩ Config.defaultConfig).ignore = [] := by
  refine ⟨(config_merge_precedence
      ⟨"d", false, false, some 10, ["x"], none, false, false, none, "",
        false, none, none⟩ ⟨42, ["y"], false⟩).1 10 rfl,
    (config_merge_precedence
      ⟨"d", false, false, none, [], none, false, false, none, "",
        false, none, none⟩ ⟨42, ["y"], false⟩).2.1 rfl,
    ((config_merge_precedence
      ⟨"d", false, false, none, [], none, false, false, none, "",
        false, none, none⟩ Config.defaultConfig).2.2.2.2.2.2.2 rfl rfl).1,
    ((config_merge_precedence
      ⟨"d", false, false, none, [], none, false, false, none, "",
        false, none, none⟩ Config.defaultConfig).2.2.2.2.2.2.2 rfl rfl).2⟩

/-- Counterexample to C6 as stated: with no settings file and no CLI
override the merged ignore set is empty; it is not the claimed set
containing .git. -/
theorem default_ignore_counterexample :
    (WatchArgs.updateFromConfig
        ⟨"d", false, false, none, [], none, false, false, none, "",
          false, none, none⟩ Config.defaultConfig).ignore = [] ∧
    ([] : List String) ≠ [".git"] := by
  refine ⟨by decide, by decide⟩

/-- C7: the AuthenticationMethod enum of git.rs provides exactly the two
variants SshAgent and SshKey and no UsernamePassword (or Https) variant;
nevertheless get_authentication_method in watch.rs panics on a missing key
file instead of failing with NotFound, and with username and password both
present tries to build an Https value that the declared enum cannot
represent (modelled here by the separate extended enum WatchAuthMethod, so
the crate as written does not compile). -/
theorem authentication_method_resolution_facts :
    (∀ m : AuthenticationMethod,
      m = .sshAgent ∨ ∃ p s, m = .sshKey p s) ∧
    WatchArgs.getAuthenticationMethod
      ⟨"d", false, false, none, [], none, true, false, some "k", "",
        false, none, none⟩ (fun _ => false) =
      .panicked "provided key does not exist" ∧
    WatchArgs.getAuthenticationMethod
      ⟨"d", false, false, none, [], none, true, false, none, "",
        true, some "u", some "pw"⟩ (fun _ => true) =
      .ok (.https "u" "pw") := by
  refine ⟨?_, by decide, by decide⟩
  intro m
  cases m with
  | sshAgent => exact Or.inl rfl
  | sshKey p s => exact Or.inr ⟨p, s, rfl⟩

/-- C9 (amended): authentication resolution is performed and unwrapped at
watch startup even when push_on_exit is false: for every invocation in
which ssh_agent is false, ssh_key is absent, and the https username or
password is absent, WatchArgs::run panics before the run loop starts,
provided the setup step that opens the repository succeeds (always the case
in dry-run mode); so entering the run loop without an authentication
selection is impossible. -/
theorem startup_panics_without_auth (a : WatchArgs) (cfg : Config)
    (tree : FsTree) (keyExists : String → Bool) (repoOpenOk : Bool)
    (hagent : a.ssh_agent = false) (hkey : a.ssh_key = none)
    (hcred : a.https_username = none ∨ a.https_password = none)
    (hopen : a.dry_run = true ∨ repoOpenOk = true) :
    a.runStartup cfg tree keyExists repoOpenOk =
      .panicBeforeLoop "called unwrap on a None value" := by
  have hauth : (a.updateFromConfig cfg).getAuthenticationMethod keyExists =
      .panicked "called unwrap on a None value" := by
    show a.getAuthenticationMethod keyExists = _
    rw [WatchArgs.getAuthenticationMethod, hagent, hkey]
    rcases hcred with h | h
    · cases hp : a.https_password <;> simp [h, hp]
    · cases hu : a.https_username <;> simp [h, hu]
  have hd : (a.updateFromConfig cfg).dry_run = a.dry_run := rfl
  rw [WatchArgs.runStartup]
  rcases hopen with h | h
  · simp [hd, h, hauth]
  · by_cases hdr : a.dry_run <;> simp [hd, hdr, h, hauth]

/-- Witness for C9 at a concrete dry-run invocation with no authentication
method selected. -/
theorem startup_panics_without_auth_witness :
    WatchArgs.runStartup
      ⟨"d", false, true, none, [], none, false, false, none, "",
        false, none, none⟩ Config.defaultConfig (FsTree.file "x")
      (fun _ => false) false =
      .panicBeforeLoop "called unwrap on a None value" :=
  startup_panics_without_auth
    ⟨"d", false, true, none, [], none, false, false, none, "",
      false, none, none⟩ Config.defaultConfig (FsTree.file "x")
    (fun _ => false) false rfl rfl (Or.inl rfl) (Or.inl rfl)

/-- Counterexample to C9 as stated: an invocation with no authentication
selection, not in dry-run mode, whose directory cannot be opened as a
repository: WatchArgs::run returns the error from the question-mark
operator before reaching authentication resolution, so this invocation does
not panic. -/
theorem startup_err_not_panic_counterexample :
    WatchArgs.runStartup
      ⟨"d", false, false, none, [], none, false, false, none, "",
        false, none, none⟩ Config.defaultConfig (FsTree.file "x")
      (fun _ => false) false = .errBeforeLoop := by
  decide

/-- C10: the recursive flag has no effect: two invocations differing only
in the recursive flag produce the same watched directory set and the same
startup outcome (hence the same watcher subscriptions and the same backend
call trace, which are functions of that outcome), and every watcher
subscription is issued in non-recursive mode. -/
theorem recursive_flag_no_effect (a : WatchArgs) (r1 r2 : Bool)
    (cfg : Config) (tree : FsTree) (keyExists : String → Bool)
    (repoOpenOk : Bool) :
    (WatchArgs.updateFromConfig { a with recursive := r1 } cfg
      ).listWatchedDirectories tree =
      (WatchArgs.updateFromConfig { a with recursive := r2 } cfg
        ).listWatchedDirectories tree ∧
    WatchArgs.runStartup { a with recursive := r1 } cfg tree keyExists
        repoOpenOk =
      WatchArgs.runStartup { a with recursive := r2 } cfg tree keyExists
        repoOpenOk ∧
    ∀ w : WatchState, ∀ x ∈ w.subscriptions,
      x.2 = RecursiveMode.nonRecursive := by
  refine ⟨rfl, rfl, ?_⟩
  intro w x hx
  simp only [WatchState.subscriptions, List.mem_map] at hx
  obtain ⟨d, _, rfl⟩ := hx
  rfl

end Nabu
